import Mathlib

/-!
Shallow embedding of `src/main.go` (a small Go HTTP geocoding service) and
verification of its natural-language specification.

Modelling conventions:
* Go strings are Lean `String`s; Go `[]rune(s)` is `s.data : List Char`
  (both are the sequence of Unicode code points).
* Machine floats are modelled by `ℚ`; the transcendental haversine
  computation from the `umahmood/haversine` library and Go's
  `strconv.ParseFloat` are abstracted as explicit function parameters
  (`hav`, `parseF`), since the properties under verification do not
  depend on their values.
* The database and the outbound HTTP call are modelled as oracles passed
  to the handlers; handlers return an event trace, the final database
  state and the HTTP response.
* Go's distinction between a `nil` slice and an empty slice matters for
  JSON encoding (`encoding/json` renders a nil slice as `null`), so Go
  slices built by `append` are modelled as `Option (List α)` with
  `none` = nil slice.
-/

namespace GoServer

/-! ## Strings and the common-prefix function (src/main.go lines 190-214) -/

/-- The body of the inner loop of Go's `CommonPrefix` for one string `str`:
`prefix = prefix[:len(strRune)]` followed by
`for i := range prefix { if prefix[i] != strRune[i] { prefix = prefix[:i]; break } }`.
After the truncation the scan cuts `prefix` at the first mismatching rune,
which is exactly this recursion (the case where `prefix` is longer than
`strRune` cannot be reached after the truncation). -/
def prefixStep : List Char → List Char → List Char
  | [], _ => []
  | _ :: _, [] => []
  | a :: as, b :: bs => if a = b then a :: prefixStep as bs else []

/-- Go `CommonPrefix(strs []string) string` (src/main.go lines 190-214):
sentinel on the empty list, otherwise fold the truncate-and-scan loop body
over all strings starting from the runes of `strs[0]`, and map an empty
result to `"None"`. -/
def CommonPrefix (strs : List String) : String :=
  match strs with
  | [] => "Error: func commonPrefix"
  | s0 :: _ =>
    let pre := strs.foldl (fun pre str => prefixStep pre str.data) s0.data
    if pre = [] then "None" else ⟨pre⟩

theorem prefixStep_prefix_left (a b : List Char) : prefixStep a b <+: a := by
  induction a generalizing b with
  | nil => simp [prefixStep]
  | cons x xs ih =>
    cases b with
    | nil => simp [prefixStep]
    | cons y ys =>
      by_cases h : x = y
      · simpa [prefixStep, h] using (List.prefix_cons_inj x).mpr (ih ys)
      · simp [prefixStep, h]

theorem prefixStep_prefix_right (a b : List Char) : prefixStep a b <+: b := by
  induction a generalizing b with
  | nil => simp [prefixStep]
  | cons x xs ih =>
    cases b with
    | nil => simp [prefixStep]
    | cons y ys =>
      by_cases h : x = y
      · rw [prefixStep, if_pos h, h]
        exact (List.prefix_cons_inj y).mpr (ih ys)
      · simp [prefixStep, h]

theorem prefix_prefixStep {q a b : List Char} (ha : q <+: a) (hb : q <+: b) :
    q <+: prefixStep a b := by
  induction q generalizing a b with
  | nil => simp
  | cons x xs ih =>
    cases a with
    | nil => simp at ha
    | cons ya as =>
      cases b with
      | nil => simp at hb
      | cons yb bs =>
        obtain ⟨rfl, ha'⟩ := List.cons_prefix_cons.mp ha
        obtain ⟨rfl, hb'⟩ := List.cons_prefix_cons.mp hb
        simpa [prefixStep] using (List.prefix_cons_inj x).mpr (ih ha' hb')

/-- The fold's result is a prefix of the accumulator it started from. -/
theorem foldl_prefixStep_prefix_init (l : List String) (init : List Char) :
    l.foldl (fun pre str => prefixStep pre str.data) init <+: init := by
  induction l generalizing init with
  | nil => simp
  | cons s rest ih =>
    exact (ih (prefixStep init s.data)).trans (prefixStep_prefix_left _ _)

/-- The fold's result is a prefix of every string folded over. -/
theorem foldl_prefixStep_prefix_mem (l : List String) (init : List Char) :
    ∀ s ∈ l, l.foldl (fun pre str => prefixStep pre str.data) init <+: s.data := by
  induction l generalizing init with
  | nil => simp
  | cons t rest ih =>
    intro s hs
    rcases List.mem_cons.mp hs with rfl | hs
    · exact (foldl_prefixStep_prefix_init rest _).trans
        (prefixStep_prefix_right _ _)
    · exact ih _ s hs

/-- Any common prefix of the accumulator and all folded strings is a prefix
of the fold's result. -/
theorem prefix_foldl_prefixStep (l : List String) (init : List Char)
    (q : List Char) (hinit : q <+: init) (hall : ∀ s ∈ l, q <+: s.data) :
    q <+: l.foldl (fun pre str => prefixStep pre str.data) init := by
  induction l generalizing init with
  | nil => simpa
  | cons t rest ih =>
    exact ih _ (prefix_prefixStep hinit (hall t (by simp)))
      (fun s hs => hall s (by simp [hs]))

/-- C1: for every non-empty list of strings, `CommonPrefix` returns the
longest initial sequence of Unicode code points shared by every string in
the list ("None" when that shared prefix is empty, the shared prefix
itself otherwise). -/
theorem claim_C1 (strs : List String) (h : strs ≠ []) :
    ∃ p : List Char,
      (∀ s ∈ strs, p <+: s.data) ∧
      (∀ q : List Char, (∀ s ∈ strs, q <+: s.data) → q.length ≤ p.length) ∧
      CommonPrefix strs = if p = [] then "None" else ⟨p⟩ := by
  match strs with
  | s0 :: rest =>
    have heq : CommonPrefix (s0 :: rest) =
        if (s0 :: rest).foldl (fun pre str => prefixStep pre str.data) s0.data
            = [] then
          "None"
        else
          ⟨(s0 :: rest).foldl (fun pre str => prefixStep pre str.data) s0.data⟩ :=
      rfl
    exact ⟨_, foldl_prefixStep_prefix_mem _ _,
      fun q hq => List.IsPrefix.length_le
        (prefix_foldl_prefixStep _ _ q (hq s0 (by simp)) fun s hs => hq s hs),
      heq⟩

theorem claim_C1_witness :
    ∃ p : List Char,
      (∀ s ∈ (["ab", "ac"] : List String), p <+: s.data) ∧
      (∀ q : List Char,
        (∀ s ∈ (["ab", "ac"] : List String), q <+: s.data) →
          q.length ≤ p.length) ∧
      CommonPrefix ["ab", "ac"] = if p = [] then "None" else ⟨p⟩ :=
  claim_C1 ["ab", "ac"] (by simp)

/-- C3: `CommonPrefix` applied to the empty list returns exactly the
sentinel string "Error: func commonPrefix". -/
theorem claim_C3 : CommonPrefix [] = "Error: func commonPrefix" := rfl

/-- C9: for every input list, `CommonPrefix` never returns the empty
string: the result is the sentinel, the literal "None", or a non-empty
string of code points. -/
theorem claim_C9 (strs : List String) :
    CommonPrefix strs = "Error: func commonPrefix" ∨
      CommonPrefix strs = "None" ∨ (CommonPrefix strs).data ≠ [] := by
  match strs with
  | [] => exact Or.inl rfl
  | s0 :: rest =>
    have heq : CommonPrefix (s0 :: rest) =
        if (s0 :: rest).foldl (fun pre str => prefixStep pre str.data) s0.data
            = [] then
          "None"
        else
          ⟨(s0 :: rest).foldl (fun pre str => prefixStep pre str.data) s0.data⟩ :=
      rfl
    by_cases hp :
        (s0 :: rest).foldl (fun pre str => prefixStep pre str.data) s0.data = []
    · exact Or.inr (Or.inl (by rw [heq, if_pos hp]))
    · refine Or.inr (Or.inr ?_)
      rw [heq, if_neg hp]
      exact hp

/-! ## JSON values and HTTP responses -/

/-- JSON values as produced by Go's `encoding/json` marshalling. -/
inductive Json where
  | null
  | str (s : String)
  | int (n : ℤ)
  | num (q : ℚ)
  | arr (elems : List Json)
  | obj (fields : List (String × Json))

/-- Look up a field of a JSON object. -/
def Json.field : Json → String → Option Json
  | .obj fs, k => fs.lookup k
  | _, _ => none

/-- An HTTP response: status code plus marshalled JSON body. -/
structure HttpResp where
  status : Nat
  body : Json

/-- The 500 response `c.JSON(http.StatusInternalServerError,
map[string]string\x7b"error": err.Error()\x7d)` used by both handlers. -/
def errJson (msg : String) : HttpResp :=
  ⟨500, .obj [("error", .str msg)]⟩

/-! ## Go nil-vs-empty slices under `encoding/json` -/

/-- Go `append(s, x)` on a slice modelled as `Option (List α)`
(`none` = the nil slice): appending always yields a non-nil slice. -/
def goAppend {α : Type} (s : Option (List α)) (x : α) : Option (List α) :=
  some (s.getD [] ++ [x])

/-- `encoding/json` marshalling of a slice: a nil slice encodes as the JSON
value `null`, a non-nil slice as a JSON array of its elements. -/
def marshalSlice {α : Type} (s : Option (List α)) (f : α → Json) : Json :=
  match s with
  | none => .null
  | some xs => .arr (xs.map f)

/-! ## Configuration (src/main.go lines 53-57 and 108-121) -/

/-- Go `AppConfig` (values read from the environment; `os.Getenv` yields
`""` for an absent variable, so "absent" and "empty" coincide). -/
structure AppConfig where
  DBHost : String
  DBName : String
  Password : String

/-- Go `fmt.Sprintf` restricted to the `%s` verbs the program uses,
working on runes. -/
def goSprintf : List Char → List String → List Char
  | [], _ => []
  | '%' :: 's' :: rest, a :: args => a.data ++ goSprintf rest args
  | '%' :: 's' :: rest, [] => "%!s(MISSING)".data ++ goSprintf rest []
  | c :: rest, args => c :: goSprintf rest args

/-- Go `dbConnStr` (src/main.go lines 108-121): reject an empty password,
otherwise build the connection string with `fmt.Sprintf`. -/
def dbConnStr (config : AppConfig) : Except String String :=
  let dbHost := config.DBHost
  let dbName := config.DBName
  let password := config.Password
  if password = "" then
    .error "missing or invalid database password"
  else
    .ok ⟨goSprintf
      "host=%s user=postgres password=%s dbname=%s sslmode=disable".data
      [dbHost, password, dbName]⟩

/-! ## The /address handler (src/main.go lines 124-187) -/

/-- Go `Location` (one candidate returned by the geocoding API; all fields
are strings, including the coordinates). -/
structure Location where
  City : String
  Town : String
  X : String
  Y : String
  Prefecture : String
  Postal : String
deriving DecidableEq

/-- Go `AppResponse` (the outward-facing result of `/address`). -/
structure AppResponse where
  PostalCode : String
  HitCount : Nat
  Address : String
  TokyoStaDistance : ℚ
deriving DecidableEq

/-- `encoding/json` marshalling of `AppResponse` via its struct tags. -/
def marshalAppResponse (r : AppResponse) : Json :=
  .obj [("postal_code", .str r.PostalCode), ("hit_count", .int r.HitCount),
    ("address", .str r.Address), ("tokyo_sta_distance", .num r.TokyoStaDistance)]

def tokyoX : ℚ := 139.7673068

def tokyoY : ℚ := 35.6809591

/-- Go `x, _ := strconv.ParseFloat(s, 64)` with the error discarded:
a string that does not parse yields 0.  `parseF` abstracts the success
cases of `strconv.ParseFloat`. -/
def goParseFloat (parseF : String → Option ℚ) (s : String) : ℚ :=
  (parseF s).getD 0

/-- The distance loop of `getAddress` (src/main.go lines 166-176): fold
over the locations tracking the maximum haversine distance from Tokyo
Station, starting from 0.0.  `hav lat1 lon1 lat2 lon2` abstracts the km
component of `haversine.Distance`. -/
def maxDistanceCalc (hav : ℚ → ℚ → ℚ → ℚ → ℚ) (parseF : String → Option ℚ)
    (locs : List Location) : ℚ :=
  locs.foldl
    (fun maxDistance location =>
      let x := goParseFloat parseF location.X
      let y := goParseFloat parseF location.Y
      let km := hav tokyoY tokyoX y x
      if km > maxDistance then km else maxDistance)
    0

/-- Go `math.Round`: round to the nearest integer, halves away from
zero. -/
def mathRound (q : ℚ) : ℚ :=
  if q < 0 then (-(⌊-q + 1/2⌋ : ℤ) : ℚ) else ((⌊q + 1/2⌋ : ℤ) : ℚ)

/-- `math.Round(maxDistance*10) / 10` (src/main.go line 182): round to one
decimal place. -/
def roundTo1 (q : ℚ) : ℚ := mathRound (q * 10) / 10

/-- The first loop of `getAddress` (src/main.go lines 156-163): build
`addresses[i] = prefecture + city + town` and track the shortest address,
comparing Go `len` (UTF-8 byte length). -/
def buildAddresses (locs : List Location) : List String × String :=
  locs.foldl
    (fun acc location =>
      let a := location.Prefecture ++ location.City ++ location.Town
      let addresses := acc.1 ++ [a]
      let shortestAddress :=
        if acc.2 = "" ∨ a.utf8ByteSize < acc.2.utf8ByteSize then a else acc.2
      (addresses, shortestAddress))
    ([], "")

/-- One access-log row (columns of the `access_logs` table); `created_at`
is an abstract timestamp. -/
structure LogRow where
  postal_code : String
  created_at : Nat
deriving DecidableEq

/-- Externally visible effects of the `/address` handler, in order. -/
inductive Event where
  | dbInsert (postalCode : String) (t : Nat)
  | httpGet (url : String)
deriving DecidableEq

/-- Outcome of the geocoding fetch: a network error from `http.Get`, a
body-read error from `ioutil.ReadAll`, a JSON-parse error from
`json.Unmarshal`, or the parsed list of locations. -/
inductive FetchOutcome where
  | netErr (msg : String)
  | readErr (msg : String)
  | parseErr (msg : String)
  | ok (locations : List Location)
deriving DecidableEq

/-- Result of one `/address` request: the trace of externally visible
effects, the final database state, and the HTTP response. -/
structure GetAddressResult where
  events : List Event
  db : List LogRow
  resp : HttpResp

/-- The URL template of the outbound geocoding request. -/
def geoUrlFmt : List Char :=
  "https://geoapi.heartrails.com/api/json?method=searchByPostal&postal=%s".data

/-- Go `getAddress` (src/main.go lines 124-187).  `ins` is the database's
answer to the `INSERT` (issued first), `fetch` the outcome of the
geocoding fetch, `now` the value of `time.Now()`, `db` the table contents
before the request. -/
def getAddress (hav : ℚ → ℚ → ℚ → ℚ → ℚ) (parseF : String → Option ℚ)
    (postalCode : String) (now : Nat) (ins : Except String Unit)
    (fetch : FetchOutcome) (db : List LogRow) : GetAddressResult :=
  match ins with
  | .error msg => ⟨[.dbInsert postalCode now], db, errJson msg⟩
  | .ok () =>
    let db := db ++ [⟨postalCode, now⟩]
    let url : String := ⟨goSprintf geoUrlFmt [postalCode]⟩
    let events := [Event.dbInsert postalCode now, Event.httpGet url]
    match fetch with
    | .netErr msg => ⟨events, db, errJson msg⟩
    | .readErr msg => ⟨events, db, errJson msg⟩
    | .parseErr msg => ⟨events, db, errJson msg⟩
    | .ok locations =>
      let pair := buildAddresses locations
      let addresses := pair.1
      let maxDistance := maxDistanceCalc hav parseF locations
      let appResponse : AppResponse :=
        ⟨postalCode, locations.length, CommonPrefix addresses,
          roundTo1 maxDistance⟩
      ⟨events, db, ⟨200, marshalAppResponse appResponse⟩⟩

/-! ## The /address/access_logs handler (src/main.go lines 223-245) -/

/-- Go `AccessLog` (one grouped row of the summary query). -/
structure AccessLog where
  PostalCode : String
  RequestCount : ℤ
deriving DecidableEq

/-- `encoding/json` marshalling of `AccessLog` via its struct tags. -/
def marshalAccessLog (l : AccessLog) : Json :=
  .obj [("postal_code", .str l.PostalCode),
    ("request_count", .int l.RequestCount)]

/-- Outcome of the grouped `SELECT`: a query error, or the sequence of row
scans (each of which may fail) together with the deferred `rows.Err()`. -/
inductive QueryOutcome where
  | qerr (msg : String)
  | rows (scans : List (Except String AccessLog)) (rowsErr : Option String)

/-- The row loop of `getAccessLogs`: `for rows.Next() \x7b ... \x7d`
accumulating into the initially nil slice `var logs []AccessLog`; a scan
failure aborts with its error. -/
def scanRows : List (Except String AccessLog) → Option (List AccessLog) →
    Except String (Option (List AccessLog))
  | [], logs => .ok logs
  | .error msg :: _, _ => .error msg
  | .ok row :: rest, logs => scanRows rest (goAppend logs row)

/-- Go `getAccessLogs` (src/main.go lines 223-245). -/
def getAccessLogs (q : QueryOutcome) : HttpResp :=
  match q with
  | .qerr msg => errJson msg
  | .rows scans rowsErr =>
    match scanRows scans none with
    | .error msg => errJson msg
    | .ok logs =>
      match rowsErr with
      | some msg => errJson msg
      | none => ⟨200, .obj [("access_logs", marshalSlice logs marshalAccessLog)]⟩

/-! ## Comparison handler for the dead-code claim -/

/-- The address list alone: what the first loop of `getAddress` computes
once the shortest-address tracking is removed. -/
def addressesOnly (locs : List Location) : List String :=
  locs.map fun location => location.Prefecture ++ location.City ++ location.Town

/-- `getAddress` with the shortest-address tracking removed from the first
loop (the comparison target of the dead-code claim); everything else is
unchanged. -/
def getAddressNoShortest (hav : ℚ → ℚ → ℚ → ℚ → ℚ)
    (parseF : String → Option ℚ) (postalCode : String) (now : Nat)
    (ins : Except String Unit) (fetch : FetchOutcome) (db : List LogRow) :
    GetAddressResult :=
  match ins with
  | .error msg => ⟨[.dbInsert postalCode now], db, errJson msg⟩
  | .ok () =>
    let db := db ++ [⟨postalCode, now⟩]
    let url : String := ⟨goSprintf geoUrlFmt [postalCode]⟩
    let events := [Event.dbInsert postalCode now, Event.httpGet url]
    match fetch with
    | .netErr msg => ⟨events, db, errJson msg⟩
    | .readErr msg => ⟨events, db, errJson msg⟩
    | .parseErr msg => ⟨events, db, errJson msg⟩
    | .ok locations =>
      let addresses := addressesOnly locations
      let maxDistance := maxDistanceCalc hav parseF locations
      let appResponse : AppResponse :=
        ⟨postalCode, locations.length, CommonPrefix addresses,
          roundTo1 maxDistance⟩
      ⟨events, db, ⟨200, marshalAppResponse appResponse⟩⟩

theorem buildAddresses_foldl_fst (locs : List Location)
    (acc : List String × String) :
    (locs.foldl
      (fun acc location =>
        let a := location.Prefecture ++ location.City ++ location.Town
        let addresses := acc.1 ++ [a]
        let shortestAddress :=
          if acc.2 = "" ∨ a.utf8ByteSize < acc.2.utf8ByteSize then a
          else acc.2
        (addresses, shortestAddress))
      acc).1 = acc.1 ++ addressesOnly locs := by
  induction locs generalizing acc with
  | nil => simp [addressesOnly]
  | cons location rest ih =>
    simp only [List.foldl_cons, ih, addressesOnly, List.map_cons]
    simp [List.append_assoc]

/-- The first component of `buildAddresses` is the plain address list. -/
theorem buildAddresses_fst (locs : List Location) :
    (buildAddresses locs).1 = addressesOnly locs := by
  simpa using buildAddresses_foldl_fst locs ([], "")

/-! ## Claims about the handlers and configuration -/

/-- C2 counterexample: when the grouped query succeeds with zero rows the
handler does respond 200, but the `access_logs` field of the body is the
JSON value `null` (Go's `encoding/json` marshals the still-nil slice
`var logs []AccessLog` as `null`), which is not the empty JSON list. -/
theorem claim_C2_counterexample :
    (getAccessLogs (QueryOutcome.rows [] none)).status = 200 ∧
    (getAccessLogs (QueryOutcome.rows [] none)).body.field "access_logs" =
      some Json.null ∧
    Json.null ≠ Json.arr [] :=
  ⟨rfl, rfl, fun h => Json.noConfusion h⟩

/-- C2 amended: when the access-log query succeeds and yields zero grouped
rows, the handler responds 200 with a JSON body whose `access_logs` field
is JSON `null` (the `encoding/json` rendering of the nil slice), not an
empty list. -/
theorem claim_C2_amended :
    getAccessLogs (QueryOutcome.rows [] none) =
      ⟨200, Json.obj [("access_logs", Json.null)]⟩ := rfl

/-- C4: when the access-log insert succeeds, the handler's effect trace is
the insert followed by the outbound geocoding request, in that order, and
the final database state is the old one with the logged row appended —
for every geocoding outcome, so a geocoding failure of any kind leaves
the already-inserted row in place. -/
theorem claim_C4 (hav : ℚ → ℚ → ℚ → ℚ → ℚ) (parseF : String → Option ℚ)
    (postalCode : String) (now : Nat) (ins : Except String Unit)
    (fetch : FetchOutcome) (db : List LogRow) (h : ins = Except.ok ()) :
    (getAddress hav parseF postalCode now ins fetch db).events =
      [Event.dbInsert postalCode now,
        Event.httpGet ⟨goSprintf geoUrlFmt [postalCode]⟩] ∧
    (getAddress hav parseF postalCode now ins fetch db).db =
      db ++ [⟨postalCode, now⟩] := by
  subst h
  cases fetch <;> exact ⟨rfl, rfl⟩

theorem claim_C4_witness :
    (getAddress (fun _ _ _ _ => 0) (fun _ => none) "1000001" 0
        (Except.ok ()) (FetchOutcome.netErr "connection refused") []).events =
      [Event.dbInsert "1000001" 0,
        Event.httpGet ⟨goSprintf geoUrlFmt ["1000001"]⟩] ∧
    (getAddress (fun _ _ _ _ => 0) (fun _ => none) "1000001" 0
        (Except.ok ()) (FetchOutcome.netErr "connection refused") []).db =
      [] ++ [⟨"1000001", 0⟩] :=
  claim_C4 (fun _ _ _ _ => 0) (fun _ => none) "1000001" 0 (Except.ok ())
    (FetchOutcome.netErr "connection refused") [] rfl

/-- C5: if the access-log insert fails, the handler responds 500 with a
JSON object carrying the underlying error text and stops: no geocoding
request is issued, the database is unchanged, and no 200 response is
produced. -/
theorem claim_C5 (hav : ℚ → ℚ → ℚ → ℚ → ℚ) (parseF : String → Option ℚ)
    (postalCode : String) (now : Nat) (ins : Except String Unit)
    (fetch : FetchOutcome) (db : List LogRow) (msg : String)
    (h : ins = Except.error msg) :
    (getAddress hav parseF postalCode now ins fetch db).resp =
      errJson msg ∧
    (getAddress hav parseF postalCode now ins fetch db).resp.body =
      Json.obj [("error", Json.str msg)] ∧
    (getAddress hav parseF postalCode now ins fetch db).events =
      [Event.dbInsert postalCode now] ∧
    (getAddress hav parseF postalCode now ins fetch db).db = db ∧
    (getAddress hav parseF postalCode now ins fetch db).resp.status ≠ 200 := by
  subst h
  exact ⟨rfl, rfl, rfl, rfl, show (500 : Nat) ≠ 200 by decide⟩

theorem claim_C5_witness :
    (getAddress (fun _ _ _ _ => 0) (fun _ => none) "1000001" 0
        (Except.error "db down") (FetchOutcome.ok []) []).resp =
      errJson "db down" ∧
    (getAddress (fun _ _ _ _ => 0) (fun _ => none) "1000001" 0
        (Except.error "db down") (FetchOutcome.ok []) []).resp.body =
      Json.obj [("error", Json.str "db down")] ∧
    (getAddress (fun _ _ _ _ => 0) (fun _ => none) "1000001" 0
        (Except.error "db down") (FetchOutcome.ok []) []).events =
      [Event.dbInsert "1000001" 0] ∧
    (getAddress (fun _ _ _ _ => 0) (fun _ => none) "1000001" 0
        (Except.error "db down") (FetchOutcome.ok []) []).db = [] ∧
    (getAddress (fun _ _ _ _ => 0) (fun _ => none) "1000001" 0
        (Except.error "db down") (FetchOutcome.ok []) []).resp.status ≠ 200 :=
  claim_C5 (fun _ _ _ _ => 0) (fun _ => none) "1000001" 0
    (Except.error "db down") (FetchOutcome.ok []) [] "db down" rfl

/-- C6: a coordinate field that fails to parse is treated as zero by the
error-discarding `strconv.ParseFloat` call, and the handler still
responds 200 — a malformed coordinate never fails the request. -/
theorem claim_C6 (hav : ℚ → ℚ → ℚ → ℚ → ℚ) (parseF : String → Option ℚ)
    (postalCode : String) (now : Nat) (db : List LogRow)
    (locs : List Location) (loc : Location) (hmem : loc ∈ locs)
    (hx : parseF loc.X = none ∨ parseF loc.Y = none) :
    ((parseF loc.X = none → goParseFloat parseF loc.X = 0) ∧
      (parseF loc.Y = none → goParseFloat parseF loc.Y = 0)) ∧
    (getAddress hav parseF postalCode now (Except.ok ())
        (FetchOutcome.ok locs) db).resp.status = 200 := by
  refine ⟨⟨fun hz => ?_, fun hz => ?_⟩, rfl⟩
  · simp [goParseFloat, hz]
  · simp [goParseFloat, hz]

theorem claim_C6_witness :
    ((((fun _ => none : String → Option ℚ) "bogus" = none →
        goParseFloat (fun _ => none) "bogus" = 0) ∧
      ((fun _ => none : String → Option ℚ) "35.68" = none →
        goParseFloat (fun _ => none) "35.68" = 0)) ∧
    (getAddress (fun _ _ _ _ => 0) (fun _ => none) "1000001" 0
        (Except.ok ())
        (FetchOutcome.ok [⟨"c", "t", "bogus", "35.68", "p", "1000001"⟩])
        []).resp.status = 200) :=
  claim_C6 (fun _ _ _ _ => 0) (fun _ => none) "1000001" 0 []
    [⟨"c", "t", "bogus", "35.68", "p", "1000001"⟩]
    ⟨"c", "t", "bogus", "35.68", "p", "1000001"⟩ (by simp)
    (Or.inl rfl)

theorem if_gt_eq_max (m k : ℚ) : (if k > m then k else m) = max m k := by
  rcases le_or_lt k m with h | h
  · rw [if_neg (not_lt.mpr h), max_eq_left h]
  · rw [if_pos h, max_eq_right h.le]

/-- The distance loop computes the maximum of the per-candidate distances,
starting from 0. -/
theorem maxDistanceCalc_eq_foldl_max (hav : ℚ → ℚ → ℚ → ℚ → ℚ)
    (parseF : String → Option ℚ) (locs : List Location) :
    maxDistanceCalc hav parseF locs =
      (locs.map fun location =>
        hav tokyoY tokyoX (goParseFloat parseF location.Y)
          (goParseFloat parseF location.X)).foldl max 0 := by
  have main : ∀ (l : List Location) (init : ℚ),
      l.foldl
        (fun maxDistance location =>
          let x := goParseFloat parseF location.X
          let y := goParseFloat parseF location.Y
          let km := hav tokyoY tokyoX y x
          if km > maxDistance then km else maxDistance)
        init =
      (l.map fun location =>
        hav tokyoY tokyoX (goParseFloat parseF location.Y)
          (goParseFloat parseF location.X)).foldl max init := by
    intro l
    induction l with
    | nil => intro init; rfl
    | cons location rest ih =>
      intro init
      simp only [List.foldl_cons, List.map_cons]
      rw [ih]
      congr 1
      exact if_gt_eq_max init _
  exact main locs 0

/-- C7: the tokyo_sta_distance field is the maximum candidate distance
rounded to one decimal place with halves away from zero: a raw maximum of
12.34 yields 12.3, 12.36 yields 12.4, and an empty candidate list (whose
maximum starts from 0.0) yields 0.0. -/
theorem claim_C7 (hav : ℚ → ℚ → ℚ → ℚ → ℚ) (parseF : String → Option ℚ)
    (postalCode : String) (now : Nat) (db : List LogRow)
    (locs : List Location) :
    (getAddress hav parseF postalCode now (Except.ok ())
        (FetchOutcome.ok locs) db).resp.body.field "tokyo_sta_distance" =
      some (Json.num (roundTo1 (maxDistanceCalc hav parseF locs))) ∧
    maxDistanceCalc hav parseF locs =
      (locs.map fun location =>
        hav tokyoY tokyoX (goParseFloat parseF location.Y)
          (goParseFloat parseF location.X)).foldl max 0 ∧
    roundTo1 (12.34 : ℚ) = 12.3 ∧
    roundTo1 (12.36 : ℚ) = 12.4 ∧
    maxDistanceCalc hav parseF [] = 0 ∧
    roundTo1 0 = 0 := by
  refine ⟨rfl, maxDistanceCalc_eq_foldl_max hav parseF locs,
    by norm_num [roundTo1, mathRound], by norm_num [roundTo1, mathRound],
    rfl, by norm_num [roundTo1, mathRound]⟩

/-- C8: configuration fails exactly when the password is empty (an absent
environment variable reads as the empty string), and an empty database
host or name is accepted and kept as the empty value inside the
connection string. -/
theorem claim_C8 (c1 c2 : AppConfig) (h1 : c1.Password = "")
    (h2 : c2.Password ≠ "") :
    dbConnStr c1 = Except.error "missing or invalid database password" ∧
    dbConnStr c2 = Except.ok ("host=" ++ (c2.DBHost ++
      (" user=postgres password=" ++ (c2.Password ++
        (" dbname=" ++ (c2.DBName ++ " sslmode=disable")))))) := by
  constructor
  · simp [dbConnStr, h1]
  · simp only [dbConnStr]
    rw [if_neg h2]
    rfl

theorem claim_C8_witness :
    dbConnStr ⟨"", "", ""⟩ =
      Except.error "missing or invalid database password" ∧
    dbConnStr ⟨"", "", "secret"⟩ = Except.ok ("host=" ++ (("" : String) ++
      (" user=postgres password=" ++ (("secret" : String) ++
        (" dbname=" ++ (("" : String) ++ " sslmode=disable")))))) :=
  claim_C8 ⟨"", "", ""⟩ ⟨"", "", "secret"⟩ rfl (by decide)

/-- C10: the shortest-address computation is dead code: for every
environment the handler's result (trace, database state and response) is
identical to that of the handler with the shortest-address tracking
removed, whose address field is `CommonPrefix` of the
prefecture+city+town strings. -/
theorem claim_C10 (hav : ℚ → ℚ → ℚ → ℚ → ℚ) (parseF : String → Option ℚ)
    (postalCode : String) (now : Nat) (ins : Except String Unit)
    (fetch : FetchOutcome) (db : List LogRow) :
    getAddress hav parseF postalCode now ins fetch db =
      getAddressNoShortest hav parseF postalCode now ins fetch db := by
  cases ins with
  | error msg => rfl
  | ok u =>
    cases u
    cases fetch with
    | netErr msg => rfl
    | readErr msg => rfl
    | parseErr msg => rfl
    | ok locations =>
      simp only [getAddress, getAddressNoShortest, buildAddresses_fst]

end GoServer
